import Mathlib

/-!
Verification of `SCG_LocalVLM/src/__init__.py`, the registration shim that
builds the two ComfyUI registry tables `NODE_CLASS_MAPPINGS` and
`NODE_DISPLAY_NAME_MAPPINGS`.

The module body is three statements:

  from .nodes import *
  NODE_CLASS_MAPPINGS = \x7b "Qwen2.5VL": QwenVL, "Qwen2.5": Qwen,
                          "QwenVL": QwenVL, "Qwen": Qwen \x7d
  NODE_DISPLAY_NAME_MAPPINGS = \x7b "Qwen2.5VL": "Qwen2.5VL", "Qwen2.5": "Qwen2.5",
                                 "QwenVL": "QwenVL", "Qwen": "Qwen" \x7d

We embed Python dicts as association lists built by sequential insertion
(later duplicate keys overwrite earlier ones, as in Python), and the module
load itself as an explicit state-passing function over a module namespace
and an external world.
-/

namespace SCG

/-- Modelled from the spec: the sibling `nodes` module is not part of the
visible source; it provides two node-implementation types, `QwenVL`
(vision-language variant) and `Qwen` (text-only variant).  We represent the
two class objects as the constructors of this type. -/
inductive NodeClass where
  | QwenVL
  | Qwen
deriving DecidableEq, Repr

/-- Insert a key/value pair into an association list with Python-dict
semantics: if the key is already present its binding is overwritten in
place, otherwise the pair is appended at the end.  (Dicts built from `[]`
by `dinsert` never hold a key twice, so replacing the first occurrence is
exactly the dict behaviour.) -/
def dinsert {α : Type} (k : String) (v : α) : List (String × α) → List (String × α)
  | [] => [(k, v)]
  | p :: d => if p.1 = k then (k, v) :: d else p :: dinsert k v d

/-- Build a dict from a literal list of key/value pairs by inserting them
left to right, as a Python dict literal does. -/
def ofPairs {α : Type} (ps : List (String × α)) : List (String × α) :=
  ps.foldl (fun d p => dinsert p.1 p.2 d) []

/-- Dict lookup: value bound to `k`, if any. -/
def dget {α : Type} (d : List (String × α)) (k : String) : Option α :=
  (d.find? (fun p => p.1 == k)).map Prod.snd

/-- The keys of a dict, in insertion order. -/
def dkeys {α : Type} (d : List (String × α)) : List String :=
  d.map Prod.fst

/-- The key/value pairs of the `NODE_CLASS_MAPPINGS` dict literal
(src/__init__.py lines 5-10), in source order. -/
def classMappingPairs : List (String × NodeClass) :=
  [("Qwen2.5VL", NodeClass.QwenVL),
   ("Qwen2.5", NodeClass.Qwen),
   ("QwenVL", NodeClass.QwenVL),
   ("Qwen", NodeClass.Qwen)]

/-- `NODE_CLASS_MAPPINGS` (src/__init__.py lines 5-10): the dict built from
its literal. -/
def NODE_CLASS_MAPPINGS : List (String × NodeClass) :=
  ofPairs classMappingPairs

/-- The key/value pairs of the `NODE_DISPLAY_NAME_MAPPINGS` dict literal
(src/__init__.py lines 13-18), in source order. -/
def displayNamePairs : List (String × String) :=
  [("Qwen2.5VL", "Qwen2.5VL"),
   ("Qwen2.5", "Qwen2.5"),
   ("QwenVL", "QwenVL"),
   ("Qwen", "Qwen")]

/-- `NODE_DISPLAY_NAME_MAPPINGS` (src/__init__.py lines 13-18): the dict
built from its literal. -/
def NODE_DISPLAY_NAME_MAPPINGS : List (String × String) :=
  ofPairs displayNamePairs

/-- The four declared node identifiers. -/
def declaredIdentifiers : List String :=
  ["Qwen2.5VL", "Qwen2.5", "QwenVL", "Qwen"]

/-! ### Module-load model

To settle the load-time claims (reload idempotence, error propagation,
side effects, wildcard re-export) we model the execution of the module
body itself: a Python module namespace maps names to values, and the three
statements of `src/__init__.py` are run in order against it. -/

/-- A Python value as far as this module is concerned: a node class, a
string, or a dict. -/
inductive PyValue where
  | cls : NodeClass → PyValue
  | str : String → PyValue
  | dict : List (String × PyValue) → PyValue

/-- `from .nodes import *` (src/__init__.py line 1): bind every public
name of the `nodes` module, in order, into the namespace `ns`.  The
`nodes` module is not part of the visible source, so its public namespace
`pub` is a parameter. -/
def importStar (pub ns : List (String × PyValue)) : List (String × PyValue) :=
  pub.foldl (fun d p => dinsert p.1 p.2 d) ns

/-- Evaluate a bare name in a namespace; an unbound name is a `NameError`,
as in Python. -/
def lookupName (ns : List (String × PyValue)) (x : String) : Except String PyValue :=
  match dget ns x with
  | some v => Except.ok v
  | none => Except.error ("NameError: " ++ x)

/-- The `NODE_CLASS_MAPPINGS` dict literal (src/__init__.py lines 5-10)
with the values the names `QwenVL` and `Qwen` evaluated to. -/
def classDictLit (vQwenVL vQwen : PyValue) : PyValue :=
  PyValue.dict (ofPairs
    [("Qwen2.5VL", vQwenVL),
     ("Qwen2.5", vQwen),
     ("QwenVL", vQwenVL),
     ("Qwen", vQwen)])

/-- The `NODE_DISPLAY_NAME_MAPPINGS` dict literal (src/__init__.py lines
13-18); all values are string literals. -/
def displayDictLit : PyValue :=
  PyValue.dict (ofPairs
    [("Qwen2.5VL", PyValue.str "Qwen2.5VL"),
     ("Qwen2.5", PyValue.str "Qwen2.5"),
     ("QwenVL", PyValue.str "QwenVL"),
     ("Qwen", PyValue.str "Qwen")])

/-- Run the module body (src/__init__.py) on a starting namespace `ns0`
(empty on first load; the previous module namespace on an in-place
reload): perform the wildcard import, evaluate the names `QwenVL` and
`Qwen` (left to right, as the first dict literal does), and bind the two
mapping names.  A failed name lookup propagates as the Python `NameError`
would. -/
def runModuleBody (pub ns0 : List (String × PyValue)) :
    Except String (List (String × PyValue)) :=
  let ns := importStar pub ns0
  match lookupName ns "QwenVL", lookupName ns "Qwen" with
  | Except.ok vQwenVL, Except.ok vQwen =>
      Except.ok (dinsert "NODE_DISPLAY_NAME_MAPPINGS" displayDictLit
        (dinsert "NODE_CLASS_MAPPINGS" (classDictLit vQwenVL vQwen) ns))
  | Except.error e, _ => Except.error e
  | _, Except.error e => Except.error e

/-- The observable world outside the module: files written, network
requests issued, and any other host state.  The module body contains no
statement that reads or writes any of these. -/
structure World where
  ioWrites : List String
  networkRequests : List String
  hostState : List (String × String)
deriving DecidableEq

/-- Loading the module: first the wildcard import of the external `nodes`
collaborator runs (its result, success with its public namespace or a
load-time error, is the parameter `importResult`); an import failure
propagates unchanged, otherwise the module body runs.  The world is
threaded through explicitly. -/
def loadModule (importResult : Except String (List (String × PyValue)))
    (ns0 : List (String × PyValue)) (w : World) :
    Except String (List (String × PyValue)) × World :=
  match importResult with
  | Except.error e => (Except.error e, w)
  | Except.ok pub => (runModuleBody pub ns0, w)

/-- The content of the two mappings after a load: `none` if the load
failed, otherwise the values bound to the two registry names. -/
def moduleMappings (r : Except String (List (String × PyValue))) :
    Option (Option PyValue × Option PyValue) :=
  match r with
  | Except.ok ns =>
      some (dget ns "NODE_CLASS_MAPPINGS", dget ns "NODE_DISPLAY_NAME_MAPPINGS")
  | Except.error _ => none

/-- The names bound in the module namespace after a load (empty if the
load failed). -/
def bindingsAfterLoad (r : Except String (List (String × PyValue))) : List String :=
  match r with
  | Except.ok ns => dkeys ns
  | Except.error _ => []

/-- Modelled from the spec: a minimal public namespace for the sibling
`nodes` module (not under src/), providing exactly the two node classes
the spec requires of it. -/
def pubNodes : List (String × PyValue) :=
  [("QwenVL", PyValue.cls NodeClass.QwenVL),
   ("Qwen", PyValue.cls NodeClass.Qwen)]

/-- The module namespace after a first load (empty starting namespace)
with the minimal `nodes` namespace `pubNodes`. -/
def nsAfterFirstLoad : List (String × PyValue) :=
  [("QwenVL", PyValue.cls NodeClass.QwenVL),
   ("Qwen", PyValue.cls NodeClass.Qwen),
   ("NODE_CLASS_MAPPINGS",
     classDictLit (PyValue.cls NodeClass.QwenVL) (PyValue.cls NodeClass.Qwen)),
   ("NODE_DISPLAY_NAME_MAPPINGS", displayDictLit)]

/-- A world with no I/O, no network traffic and no host state. -/
def emptyWorld : World :=
  ⟨[], [], []⟩

end SCG

open SCG

/-- C1: for every one of the four declared identifiers, both
`NODE_CLASS_MAPPINGS` and `NODE_DISPLAY_NAME_MAPPINGS` contain that
identifier as a key. -/
theorem scg_both_maps_contain_declared_ids :
    ∀ k ∈ declaredIdentifiers,
      (dget NODE_CLASS_MAPPINGS k).isSome = true ∧
      (dget NODE_DISPLAY_NAME_MAPPINGS k).isSome = true := by
  decide

/-- C1 witness: concrete instance at the identifier "Qwen2.5VL". -/
theorem scg_both_maps_contain_declared_ids_witness :
    (dget NODE_CLASS_MAPPINGS "Qwen2.5VL").isSome = true ∧
    (dget NODE_DISPLAY_NAME_MAPPINGS "Qwen2.5VL").isSome = true :=
  scg_both_maps_contain_declared_ids "Qwen2.5VL" (by decide)

/-- C2: each of the two mappings has exactly 4 entries, and its key list is
exactly the four declared identifiers (no extras, no omissions). -/
theorem scg_both_maps_have_exactly_four_entries :
    NODE_CLASS_MAPPINGS.length = 4 ∧
    NODE_DISPLAY_NAME_MAPPINGS.length = 4 ∧
    dkeys NODE_CLASS_MAPPINGS = declaredIdentifiers ∧
    dkeys NODE_DISPLAY_NAME_MAPPINGS = declaredIdentifiers := by
  decide

/-- C3: in `NODE_CLASS_MAPPINGS` the value at "Qwen2.5VL" is the same
implementation class as the value at "QwenVL" (namely `QwenVL`), and the
value at "Qwen2.5" is the same as the value at "Qwen" (namely `Qwen`). -/
theorem scg_alias_keys_share_implementation :
    dget NODE_CLASS_MAPPINGS "Qwen2.5VL" = some NodeClass.QwenVL ∧
    dget NODE_CLASS_MAPPINGS "QwenVL" = some NodeClass.QwenVL ∧
    dget NODE_CLASS_MAPPINGS "Qwen2.5" = some NodeClass.Qwen ∧
    dget NODE_CLASS_MAPPINGS "Qwen" = some NodeClass.Qwen := by
  decide

/-- C4: every entry of `NODE_DISPLAY_NAME_MAPPINGS` binds a key to the
literal string equal to that key. -/
theorem scg_display_name_equals_key :
    ∀ p ∈ NODE_DISPLAY_NAME_MAPPINGS, p.2 = p.1 := by
  decide

/-- C4 witness: the entry for "Qwen2.5VL" is in the map and its display
name is the key itself. -/
theorem scg_display_name_equals_key_witness :
    ("Qwen2.5VL", "Qwen2.5VL") ∈ NODE_DISPLAY_NAME_MAPPINGS ∧
    ("Qwen2.5VL", "Qwen2.5VL").2 = ("Qwen2.5VL", "Qwen2.5VL").1 :=
  ⟨by decide, scg_display_name_equals_key ("Qwen2.5VL", "Qwen2.5VL") (by decide)⟩

/-- C5: the key list of `NODE_DISPLAY_NAME_MAPPINGS` equals the key list of
`NODE_CLASS_MAPPINGS`, and the keys of `NODE_CLASS_MAPPINGS` are pairwise
distinct. -/
theorem scg_key_sets_agree_and_are_distinct :
    dkeys NODE_DISPLAY_NAME_MAPPINGS = dkeys NODE_CLASS_MAPPINGS ∧
    (dkeys NODE_CLASS_MAPPINGS).Nodup := by
  decide

/-! ### Dict and namespace lemmas -/

theorem dget_nil {α : Type} (x : String) : dget ([] : List (String × α)) x = none :=
  rfl

theorem dget_cons {α : Type} (p : String × α) (d : List (String × α)) (x : String) :
    dget (p :: d) x = if p.1 = x then some p.2 else dget d x := by
  by_cases h : p.1 = x
  · simp [dget, List.find?_cons_of_pos, h]
  · simp [dget, List.find?_cons_of_neg, h]

theorem dkeys_nil {α : Type} : dkeys ([] : List (String × α)) = [] :=
  rfl

theorem dkeys_cons {α : Type} (p : String × α) (d : List (String × α)) :
    dkeys (p :: d) = p.1 :: dkeys d :=
  rfl

theorem dget_dinsert_self {α : Type} (k : String) (v : α) (d : List (String × α)) :
    dget (dinsert k v d) k = some v := by
  induction d with
  | nil => simp [dinsert, dget_cons]
  | cons p d ih =>
    by_cases h : p.1 = k
    · simp [dinsert, h, dget_cons]
    · simp [dinsert, h, dget_cons, ih]

theorem dget_dinsert_ne {α : Type} (k x : String) (v : α) (d : List (String × α))
    (h : x ≠ k) : dget (dinsert k v d) x = dget d x := by
  have h' : k ≠ x := fun hh => h hh.symm
  induction d with
  | nil => simp [dinsert, dget_cons, dget_nil, h']
  | cons p d ih =>
    by_cases hp : p.1 = k
    · rw [dinsert]
      simp only [hp, if_pos]
      rw [dget_cons, dget_cons, hp]
      simp [h']
    · rw [dinsert]
      simp only [hp, if_neg, ite_false]
      rw [dget_cons, dget_cons, ih]

theorem dget_isSome_of_mem_dkeys {α : Type} (d : List (String × α)) (x : String)
    (h : x ∈ dkeys d) : (dget d x).isSome = true := by
  induction d with
  | nil => simp [dkeys_nil] at h
  | cons p d ih =>
    rw [dget_cons]
    by_cases hp : p.1 = x
    · simp [hp]
    · rw [dkeys_cons, List.mem_cons] at h
      rcases h with h | h
    
      · exact absurd h.symm hp
      · simp [hp, ih h]

theorem mem_dkeys_dinsert_self {α : Type} (k : String) (v : α) (d : List (String × α)) :
    k ∈ dkeys (dinsert k v d) := by
  induction d with
  | nil => simp [dinsert, dkeys_cons]
  | cons p d ih =>
    by_cases h : p.1 = k
    · simp [dinsert, h, dkeys_cons]
    · rw [dinsert]
      simp only [h, if_neg, ite_false]
      rw [dkeys_cons, List.mem_cons]
      exact Or.inr ih

theorem mem_dkeys_dinsert_of_mem {α : Type} (k : String) (v : α)
    (d : List (String × α)) (x : String) (h : x ∈ dkeys d) :
    x ∈ dkeys (dinsert k v d) := by
  induction d with
  | nil => simp [dkeys_nil] at h
  | cons p d ih =>
    rw [dkeys_cons, List.mem_cons] at h
    by_cases hp : p.1 = k
    · rw [dinsert]
      simp only [hp, if_pos]
      rw [dkeys_cons, List.mem_cons]
      rcases h with h | h
      · exact Or.inl (hp ▸ h)
      · exact Or.inr (by
          have : x ∈ dkeys d := h
          exact this)
    · rw [dinsert]
      simp only [hp, if_neg, ite_false]
      rw [dkeys_cons, List.mem_cons]
      rcases h with h | h
      · exact Or.inl h
      · exact Or.inr (ih h)

theorem eq_or_mem_of_mem_dkeys_dinsert {α : Type} (k : String) (v : α)
    (d : List (String × α)) (x : String) (h : x ∈ dkeys (dinsert k v d)) :
    x = k ∨ x ∈ dkeys d := by
  induction d with
  | nil =>
    rw [dinsert, dkeys_cons, List.mem_cons] at h
    rcases h with h | h
    · exact Or.inl h
    · simp [dkeys_nil] at h
  | cons p d ih =>
    by_cases hp : p.1 = k
    · rw [dinsert] at h
      simp only [hp, if_pos] at h
      rw [dkeys_cons, List.mem_cons] at h
      rw [dkeys_cons, List.mem_cons]
      rcases h with h | h
      · exact Or.inl h
      · exact Or.inr (Or.inr h)
    · rw [dinsert] at h
      simp only [hp, if_neg, ite_false] at h
      rw [dkeys_cons, List.mem_cons] at h
      rw [dkeys_cons, List.mem_cons]
      rcases h with h | h
      · exact Or.inr (Or.inl h)
      · rcases ih h with h | h
        · exact Or.inl h
        · exact Or.inr (Or.inr h)

theorem importStar_nil (ns : List (String × PyValue)) : importStar [] ns = ns :=
  rfl

theorem importStar_cons (q : String × PyValue) (pub ns : List (String × PyValue)) :
    importStar (q :: pub) ns = importStar pub (dinsert q.1 q.2 ns) :=
  rfl

theorem dget_importStar_of_not_mem (pub : List (String × PyValue)) (x : String)
    (h : x ∉ dkeys pub) :
    ∀ ns, dget (importStar pub ns) x = dget ns x := by
  induction pub with
  | nil => intro ns; rfl
  | cons q pub ih =>
    intro ns
    rw [dkeys_cons, List.mem_cons] at h
    push_neg at h
    rw [importStar_cons, ih h.2, dget_dinsert_ne _ _ _ _ h.1]

theorem dget_importStar_agree (pub : List (String × PyValue)) (x : String)
    (h : x ∈ dkeys pub) :
    ∀ ns ns', dget (importStar pub ns) x = dget (importStar pub ns') x := by
  induction pub with
  | nil => simp [dkeys_nil] at h
  | cons q pub ih =>
    intro ns ns'
    rw [importStar_cons, importStar_cons]
    by_cases hm : x ∈ dkeys pub
    · exact ih hm _ _
    · have hx : x = q.1 := by
        rw [dkeys_cons, List.mem_cons] at h
        rcases h with h | h
        · exact h
        · exact absurd h hm
      rw [dget_importStar_of_not_mem pub x hm, dget_importStar_of_not_mem pub x hm,
          hx, dget_dinsert_self, dget_dinsert_self]

theorem dget_importStar_isSome (pub : List (String × PyValue)) (x : String)
    (h : x ∈ dkeys pub) :
    ∀ ns, (dget (importStar pub ns) x).isSome = true := by
  induction pub with
  | nil => simp [dkeys_nil] at h
  | cons q pub ih =>
    intro ns
    rw [importStar_cons]
    by_cases hm : x ∈ dkeys pub
    · exact ih hm _
    · have hx : x = q.1 := by
        rw [dkeys_cons, List.mem_cons] at h
        rcases h with h | h
        · exact h
        · exact absurd h hm
      rw [dget_importStar_of_not_mem pub x hm, hx, dget_dinsert_self]
      rfl

theorem mem_dkeys_importStar_of_right (pub : List (String × PyValue)) (x : String) :
    ∀ ns, x ∈ dkeys ns → x ∈ dkeys (importStar pub ns) := by
  induction pub with
  | nil => intro ns h; exact h
  | cons q pub ih =>
    intro ns h
    rw [importStar_cons]
    exact ih _ (mem_dkeys_dinsert_of_mem _ _ _ _ h)

theorem mem_dkeys_importStar_of_left (pub : List (String × PyValue)) (x : String)
    (h : x ∈ dkeys pub) :
    ∀ ns, x ∈ dkeys (importStar pub ns) := by
  induction pub with
  | nil => simp [dkeys_nil] at h
  | cons q pub ih =>
    intro ns
    rw [importStar_cons]
    by_cases hm : x ∈ dkeys pub
    · exact ih hm _
    · have hx : x = q.1 := by
        rw [dkeys_cons, List.mem_cons] at h
        rcases h with h | h
        · exact h
        · exact absurd h hm
      exact mem_dkeys_importStar_of_right pub x _ (hx ▸ mem_dkeys_dinsert_self q.1 q.2 ns)

theorem mem_of_mem_dkeys_importStar (pub : List (String × PyValue)) (x : String) :
    ∀ ns, x ∈ dkeys (importStar pub ns) → x ∈ dkeys pub ∨ x ∈ dkeys ns := by
  induction pub with
  | nil => intro ns h; exact Or.inr h
  | cons q pub ih =>
    intro ns h
    rw [importStar_cons] at h
    rcases ih _ h with h | h
    · exact Or.inl (by rw [dkeys_cons, List.mem_cons]; exact Or.inr h)
    · rcases eq_or_mem_of_mem_dkeys_dinsert _ _ _ _ h with h | h
      · exact Or.inl (by rw [dkeys_cons, List.mem_cons]; exact Or.inl h)
      · exact Or.inr h

theorem runModuleBody_eq_of_lookups (pub ns0 : List (String × PyValue))
    (v1 v2 : PyValue)
    (h1 : dget (importStar pub ns0) "QwenVL" = some v1)
    (h2 : dget (importStar pub ns0) "Qwen" = some v2) :
    runModuleBody pub ns0 =
      Except.ok (dinsert "NODE_DISPLAY_NAME_MAPPINGS" displayDictLit
        (dinsert "NODE_CLASS_MAPPINGS" (classDictLit v1 v2) (importStar pub ns0))) := by
  rw [runModuleBody]
  simp only [lookupName, h1, h2]

theorem moduleMappings_runModuleBody (pub ns0 : List (String × PyValue))
    (v1 v2 : PyValue)
    (h1 : dget (importStar pub ns0) "QwenVL" = some v1)
    (h2 : dget (importStar pub ns0) "Qwen" = some v2) :
    moduleMappings (runModuleBody pub ns0) =
      some (some (classDictLit v1 v2), some displayDictLit) := by
  rw [runModuleBody_eq_of_lookups pub ns0 v1 v2 h1 h2]
  rw [moduleMappings]
  rw [dget_dinsert_ne _ _ _ _ (by decide), dget_dinsert_self, dget_dinsert_self]

theorem runModuleBody_isOk (pub ns0 : List (String × PyValue))
    (hQ : "QwenVL" ∈ dkeys pub) (hW : "Qwen" ∈ dkeys pub) :
    ∃ ns, runModuleBody pub ns0 = Except.ok ns := by
  obtain ⟨v1, h1⟩ := Option.isSome_iff_exists.mp (dget_importStar_isSome pub _ hQ ns0)
  obtain ⟨v2, h2⟩ := Option.isSome_iff_exists.mp (dget_importStar_isSome pub _ hW ns0)
  exact ⟨_, runModuleBody_eq_of_lookups pub ns0 v1 v2 h1 h2⟩

theorem runModuleBody_ok_shape (pub ns0 ns : List (String × PyValue))
    (h : runModuleBody pub ns0 = Except.ok ns) :
    ∃ v1 v2, ns = dinsert "NODE_DISPLAY_NAME_MAPPINGS" displayDictLit
        (dinsert "NODE_CLASS_MAPPINGS" (classDictLit v1 v2) (importStar pub ns0)) := by
  rw [runModuleBody] at h
  cases hQ : lookupName (importStar pub ns0) "QwenVL" with
  | error e => simp only [hQ] at h; exact Except.noConfusion h
  | ok v1 =>
    cases hW : lookupName (importStar pub ns0) "Qwen" with
    | error e => simp only [hQ, hW] at h; exact Except.noConfusion h
    | ok v2 =>
      simp only [hQ, hW, Except.ok.injEq] at h
      exact ⟨v1, v2, h.symm⟩

/-- C6: re-running the module body over the namespace left by the first
load (a host reload) produces mapping contents equal to those of the first
load: construction is idempotent and deterministic, and no stale entry of
the previous namespace leaks into the rebuilt mappings. -/
theorem scg_reload_produces_equal_mappings
    (pub ns1 : List (String × PyValue))
    (hQ : "QwenVL" ∈ dkeys pub) (hW : "Qwen" ∈ dkeys pub)
    (hfirst : runModuleBody pub [] = Except.ok ns1) :
    moduleMappings (runModuleBody pub ns1) = moduleMappings (runModuleBody pub []) := by
  obtain ⟨v1, h1⟩ := Option.isSome_iff_exists.mp (dget_importStar_isSome pub _ hQ ns1)
  obtain ⟨v2, h2⟩ := Option.isSome_iff_exists.mp (dget_importStar_isSome pub _ hW ns1)
  obtain ⟨u1, g1⟩ := Option.isSome_iff_exists.mp (dget_importStar_isSome pub _ hQ [])
  obtain ⟨u2, g2⟩ := Option.isSome_iff_exists.mp (dget_importStar_isSome pub _ hW [])
  have e1 : v1 = u1 := by
    have := dget_importStar_agree pub "QwenVL" hQ ns1 []
    rw [h1, g1] at this
    exact Option.some.inj this
  have e2 : v2 = u2 := by
    have := dget_importStar_agree pub "Qwen" hW ns1 []
    rw [h2, g2] at this
    exact Option.some.inj this
  rw [moduleMappings_runModuleBody pub ns1 v1 v2 h1 h2,
      moduleMappings_runModuleBody pub [] u1 u2 g1 g2, e1, e2]

/-- C6 witness: concrete reload over the namespace left by a first load
with the minimal `nodes` namespace. -/
theorem scg_reload_produces_equal_mappings_witness :
    moduleMappings (runModuleBody pubNodes nsAfterFirstLoad) =
      moduleMappings (runModuleBody pubNodes []) :=
  scg_reload_produces_equal_mappings pubNodes nsAfterFirstLoad
    (by decide) (by decide) rfl

/-- C7: an import failure of the external `nodes` collaborator propagates
unchanged through the load, and whenever the collaborator provides its two
required names the whole construction succeeds, producing a complete
namespace in one step (atomic, all-or-nothing): the table construction
itself raises no error. -/
theorem scg_construction_error_only_from_import :
    (∀ (e : String) (ns0 : List (String × PyValue)) (w : World),
        loadModule (Except.error e) ns0 w = (Except.error e, w)) ∧
    (∀ (pub ns0 : List (String × PyValue)) (w : World),
        "QwenVL" ∈ dkeys pub → "Qwen" ∈ dkeys pub →
        ∃ ns, loadModule (Except.ok pub) ns0 w = (Except.ok ns, w)) := by
  constructor
  · intro e ns0 w
    rfl
  · intro pub ns0 w hQ hW
    obtain ⟨ns, h⟩ := runModuleBody_isOk pub ns0 hQ hW
    exact ⟨ns, by rw [loadModule, h]⟩

/-- C7 witness: concrete import failure and concrete successful load. -/
theorem scg_construction_error_only_from_import_witness :
    loadModule (Except.error "ImportError") [] emptyWorld
      = (Except.error "ImportError", emptyWorld) ∧
    ∃ ns, loadModule (Except.ok pubNodes) [] emptyWorld = (Except.ok ns, emptyWorld) :=
  ⟨scg_construction_error_only_from_import.1 "ImportError" [] emptyWorld,
   scg_construction_error_only_from_import.2 pubNodes [] emptyWorld
     (by decide) (by decide)⟩

/-- C8 counterexample: loading with the minimal `nodes` namespace binds the
name "QwenVL" (imported by the wildcard import) in the module namespace,
and "QwenVL" is neither of the two mapping names — so the load does have an
effect beyond creating the two bindings. -/
theorem scg_load_binds_more_than_the_two_mappings :
    "QwenVL" ∈ bindingsAfterLoad (runModuleBody pubNodes []) ∧
    "QwenVL" ∉ ["NODE_CLASS_MAPPINGS", "NODE_DISPLAY_NAME_MAPPINGS"] := by
  decide

/-- C8 amended: loading performs no I/O, no network access and no mutation
of state external to the module (the world is returned unchanged on every
path), and the only names it binds beyond those already present are the
names imported from `nodes` and the two mapping names. -/
theorem scg_load_effects_confined :
    (∀ (r : Except String (List (String × PyValue)))
        (ns0 : List (String × PyValue)) (w : World),
        (loadModule r ns0 w).2 = w) ∧
    (∀ (pub ns0 : List (String × PyValue)) (w : World)
        (ns : List (String × PyValue)),
        (loadModule (Except.ok pub) ns0 w).1 = Except.ok ns →
        ∀ x ∈ dkeys ns,
          x ∈ dkeys ns0 ∨ x ∈ dkeys pub ∨
          x = "NODE_CLASS_MAPPINGS" ∨ x = "NODE_DISPLAY_NAME_MAPPINGS") := by
  constructor
  · intro r ns0 w
    cases r with
    | error e => rfl
    | ok pub => rfl
  · intro pub ns0 w ns h x hx
    obtain ⟨v1, v2, hns⟩ := runModuleBody_ok_shape pub ns0 ns h
    subst hns
    rcases eq_or_mem_of_mem_dkeys_dinsert _ _ _ _ hx with h1 | h1
    · exact Or.inr (Or.inr (Or.inr h1))
    · rcases eq_or_mem_of_mem_dkeys_dinsert _ _ _ _ h1 with h2 | h2
      · exact Or.inr (Or.inr (Or.inl h2))
      · rcases mem_of_mem_dkeys_importStar pub x ns0 h2 with h3 | h3
        · exact Or.inr (Or.inl h3)
        · exact Or.inl h3

/-- C8 amended witness: concrete load with the minimal `nodes` namespace;
the world is unchanged and the binding "QwenVL" is accounted for as an
imported name. -/
theorem scg_load_effects_confined_witness :
    (loadModule (Except.ok pubNodes) [] emptyWorld).2 = emptyWorld ∧
    ("QwenVL" ∈ dkeys ([] : List (String × PyValue)) ∨ "QwenVL" ∈ dkeys pubNodes ∨
      "QwenVL" = "NODE_CLASS_MAPPINGS" ∨ "QwenVL" = "NODE_DISPLAY_NAME_MAPPINGS") :=
  ⟨scg_load_effects_confined.1 (Except.ok pubNodes) [] emptyWorld,
   scg_load_effects_confined.2 pubNodes [] emptyWorld nsAfterFirstLoad rfl
     "QwenVL" (by decide)⟩

/-- C9: in dict construction a duplicate key inserted later silently wins
(standard associative-map insertion semantics); in the actual construction
neither literal repeats a key, so every listed entry survives into the
final mapping. -/
theorem scg_duplicate_key_later_wins :
    (∀ (ps : List (String × NodeClass)) (k : String) (v : NodeClass),
        dget (ofPairs (ps ++ [(k, v)])) k = some v) ∧
    (classMappingPairs.map Prod.fst).Nodup ∧
    (displayNamePairs.map Prod.fst).Nodup ∧
    (∀ p ∈ classMappingPairs, dget NODE_CLASS_MAPPINGS p.1 = some p.2) ∧
    (∀ p ∈ displayNamePairs, dget NODE_DISPLAY_NAME_MAPPINGS p.1 = some p.2) := by
  refine ⟨?_, by decide, by decide, by decide, by decide⟩
  intro ps k v
  rw [ofPairs, List.foldl_append]
  exact dget_dinsert_self k v _

/-- C9 witness: a concrete duplicate-key construction where the later
entry wins, and a concrete listed entry surviving into the map. -/
theorem scg_duplicate_key_later_wins_witness :
    dget (ofPairs ([("Qwen", NodeClass.QwenVL)] ++ [("Qwen", NodeClass.Qwen)])) "Qwen"
      = some NodeClass.Qwen ∧
    ("Qwen2.5VL", NodeClass.QwenVL) ∈ classMappingPairs ∧
    dget NODE_CLASS_MAPPINGS ("Qwen2.5VL", NodeClass.QwenVL).1
      = some ("Qwen2.5VL", NodeClass.QwenVL).2 :=
  ⟨scg_duplicate_key_later_wins.1 [("Qwen", NodeClass.QwenVL)] "Qwen" NodeClass.Qwen,
   by decide,
   scg_duplicate_key_later_wins.2.2.2.1 ("Qwen2.5VL", NodeClass.QwenVL) (by decide)⟩

/-- C10: a successful load publishes in the module namespace every public
name of the `nodes` module (re-exported by the wildcard import) together
with the two mapping names. -/
theorem scg_wildcard_reexports_nodes_names
    (pub ns0 ns : List (String × PyValue))
    (h : runModuleBody pub ns0 = Except.ok ns) :
    (∀ x ∈ dkeys pub, x ∈ dkeys ns) ∧
    "NODE_CLASS_MAPPINGS" ∈ dkeys ns ∧
    "NODE_DISPLAY_NAME_MAPPINGS" ∈ dkeys ns := by
  obtain ⟨v1, v2, hns⟩ := runModuleBody_ok_shape pub ns0 ns h
  subst hns
  refine ⟨?_, ?_, ?_⟩
  · intro x hx
    exact mem_dkeys_dinsert_of_mem _ _ _ _
      (mem_dkeys_dinsert_of_mem _ _ _ _ (mem_dkeys_importStar_of_left pub x hx ns0))
  · exact mem_dkeys_dinsert_of_mem _ _ _ _ (mem_dkeys_dinsert_self _ _ _)
  · exact mem_dkeys_dinsert_self _ _ _

/-- C10 witness: concrete first load with the minimal `nodes` namespace;
its public names and the two mapping names all appear in the module
namespace. -/
theorem scg_wildcard_reexports_nodes_names_witness :
    (∀ x ∈ dkeys pubNodes, x ∈ dkeys nsAfterFirstLoad) ∧
    "NODE_CLASS_MAPPINGS" ∈ dkeys nsAfterFirstLoad ∧
    "NODE_DISPLAY_NAME_MAPPINGS" ∈ dkeys nsAfterFirstLoad :=
  scg_wildcard_reexports_nodes_names pubNodes [] nsAfterFirstLoad rfl
